import Mathlib

/-!
Verification development for the CRE8 backend API (`src/main.py`,
`src/schemas.py`).

Documents of the underlying document store are modelled as association
lists from field names to values; the six collections form a `DB`
record.  The data-access module (`database.py`) is imported by
`src/main.py` but is not part of the sources, so its two operations and
the store's query vocabulary are modelled from the specification
(§4.2/§6); every definition carrying such a model says so in its doc
comment.  Timestamps are modelled as natural numbers with `0` playing
the role of the earliest possible timestamp (`datetime.min`); the
distinction between naive and timezone-aware Python datetimes is
abstracted away.  Python's `str.lower` / `str.strip` are modelled on
ASCII characters.
-/

/-- A stored field value: string, timestamp, boolean, list of strings, or null. -/
inductive Value where
  | vStr (s : String)
  | vDt (t : Nat)
  | vBool (b : Bool)
  | vList (xs : List String)
  | vNone
deriving DecidableEq

/-- A document: an association list of field names to values (first key wins). -/
abbrev Doc := List (String × Value)

/-- The first value stored under field `f`, like Python's `dict.get`. -/
def dGet : Doc → String → Option Value
  | [], _ => none
  | (k, v) :: rest, f => if k = f then some v else dGet rest f

/-- Python truthiness of a stored value. -/
def truthy : Value → Bool
  | .vStr s => !(s = "")
  | .vDt _ => true
  | .vBool b => b
  | .vList xs => !xs.isEmpty
  | .vNone => false

/-- Python truthiness of `d.get(f)` (missing field is `None`, hence falsy). -/
def truthyField (d : Doc) (f : String) : Bool :=
  match dGet d f with
  | some v => truthy v
  | none => false

/-- ASCII lower-casing of one character, the model of Python `str.lower`. -/
def lowerCh (c : Char) : Char :=
  if 'A' ≤ c ∧ c ≤ 'Z' then Char.ofNat (c.toNat + 32) else c

/-- Lower-case every character of a string. -/
def lowerStr (s : String) : String := ⟨s.data.map lowerCh⟩

/-- `isPrefixL p l` decides whether `p` is a prefix of `l`. -/
def isPrefixL : List Char → List Char → Bool
  | [], _ => true
  | _ :: _, [] => false
  | a :: as, b :: bs => a = b && isPrefixL as bs

/-- `isInfixL p l` decides whether `p` occurs contiguously inside `l`. -/
def isInfixL (p : List Char) : List Char → Bool
  | [] => p.isEmpty
  | c :: rest => isPrefixL p (c :: rest) || isInfixL p rest

/-- Case-insensitive substring test: does `hay` contain `pat`, ignoring case? -/
def ciContains (hay pat : String) : Bool :=
  isInfixL (lowerStr pat).data (lowerStr hay).data

/-- One condition of a store filter: exact-value match, or the
`{"$regex": pat, "$options": "i"}` condition built by `src/main.py`. -/
inductive QCond where
  | eqv (v : Value)
  | regexI (pat : String)
deriving DecidableEq

/-- A store filter as built by the route handlers of `src/main.py`: plain
field conditions plus the optional list bound to the `$or` key. -/
structure Query where
  conds : List (String × QCond)
  orConds : List (String × QCond)
deriving DecidableEq

/-- Modelled from the spec: the store's document filter semantics
(`database.py` and the document store are not under `src/`).  Per §6 the
filter vocabulary supports exact-value match — on a list-valued field a
membership ("contains") test — and a case-insensitive "contains"
predicate for the regex condition; a condition on a missing field does
not match. -/
def matchCond (d : Doc) (f : String) (c : QCond) : Bool :=
  match c with
  | .eqv v =>
    match dGet d f with
    | some w =>
      (w = v) ||
        (match w, v with
         | .vList xs, .vStr s => xs.contains s
         | _, _ => false)
    | none => false
  | .regexI pat =>
    match dGet d f with
    | some (.vStr s) => ciContains s pat
    | _ => false

/-- Modelled from the spec: a document matches a filter when every plain
condition holds and, if an `$or` list is present, at least one of its
sub-conditions holds (§6: "logical OR across a list of sub-conditions"). -/
def matchQuery (q : Query) (d : Doc) : Bool :=
  (q.conds.all fun fc => matchCond d fc.1 fc.2) &&
    (q.orConds.isEmpty || q.orConds.any fun fc => matchCond d fc.1 fc.2)

/-- The filter that matches every document (the omitted-query case). -/
def emptyQuery : Query := ⟨[], []⟩

/-- Modelled from the spec: `get_documents(collection_name, query)` of
`database.py` (not under `src/`) returns every document of the named
collection matching the query, in store order (§4.2). -/
def get_documents (coll : List Doc) (q : Query) : List Doc :=
  coll.filter (matchQuery q)

/-- Modelled from the spec: `create_document(collection_name, payload)` of
`database.py` (not under `src/`) inserts the payload as a new document
into the named collection, with no validation (§4.2). -/
def create_document (coll : List Doc) (payload : Doc) : List Doc :=
  coll ++ [payload]

/-- The six collections of the store (§6): `principle`, `podcastepisode`,
`resource`, `tooltemplate`, `directoryprofile`, `event`. -/
structure DB where
  principle : List Doc
  podcastepisode : List Doc
  resource : List Doc
  tooltemplate : List Doc
  directoryprofile : List Doc
  event : List Doc
deriving DecidableEq

/-- The list-endpoint response envelope (`Paginated` in `src/main.py`). -/
structure Paginated where
  total : Nat
  items : List Doc
deriving DecidableEq

/-- Stable insertion into a list ordered by the boolean preorder `le`:
the new element goes in front of the first element it may precede. -/
def insertLe {α : Type} (le : α → α → Bool) (a : α) : List α → List α
  | [] => [a]
  | b :: l => if le a b then a :: b :: l else b :: insertLe le a l

/-- Stable sort by the boolean preorder `le`, the model of Python's
`list.sort` (equal elements keep their original relative order). -/
def stableSort {α : Type} (le : α → α → Bool) : List α → List α
  | [] => []
  | a :: l => insertLe le a (stableSort le l)

/-- Characters kept by the slugify regexes: lowercase ASCII letters and digits. -/
def isLowerAlnum (c : Char) : Bool :=
  ('a' ≤ c && c ≤ 'z') || ('0' ≤ c && c ≤ '9')

/-- Drop leading whitespace, one half of Python `str.strip()`. -/
def stripWsLead (cs : List Char) : List Char := cs.dropWhile Char.isWhitespace

/-- Drop trailing whitespace, the other half of Python `str.strip()`. -/
def stripWsTrail (cs : List Char) : List Char :=
  (cs.reverse.dropWhile Char.isWhitespace).reverse

/-- Python `str.strip()`: drop whitespace at both ends. -/
def stripWs (cs : List Char) : List Char := stripWsLead (stripWsTrail cs)

/-- Worker for `re.sub(r"[^a-z0-9]+", "-", text)`: replace each maximal
run of characters outside `[a-z0-9]` with a single `-`; the flag records
whether we are inside such a run. -/
def subNonAlnumAux : Bool → List Char → List Char
  | _, [] => []
  | inRun, c :: cs =>
    if isLowerAlnum c then c :: subNonAlnumAux false cs
    else if inRun then subNonAlnumAux true cs
    else '-' :: subNonAlnumAux true cs

/-- `re.sub(r"[^a-z0-9]+", "-", text)` of `_slugify`. -/
def subNonAlnum (cs : List Char) : List Char := subNonAlnumAux false cs

/-- Worker for `re.sub(r"-+", "-", text)`: collapse each run of `-` to a
single `-`; the flag records whether the previous kept character was `-`. -/
def collapseDashAux : Bool → List Char → List Char
  | _, [] => []
  | prev, c :: cs =>
    if c = '-' then
      if prev then collapseDashAux true cs else '-' :: collapseDashAux true cs
    else c :: collapseDashAux false cs

/-- `re.sub(r"-+", "-", text)` of `_slugify`. -/
def collapseDash (cs : List Char) : List Char := collapseDashAux false cs

/-- Drop leading dashes, one half of Python `str.strip("-")`. -/
def stripDashLead (cs : List Char) : List Char := cs.dropWhile (fun c => c = '-')

/-- Drop trailing dashes, the other half of Python `str.strip("-")`. -/
def stripDashTrail : List Char → List Char
  | [] => []
  | c :: cs =>
    match stripDashTrail cs with
    | [] => if c = '-' then [] else [c]
    | ds => c :: ds

/-- Python `str.strip("-")`: drop dashes at both ends. -/
def stripDash (cs : List Char) : List Char := stripDashLead (stripDashTrail cs)

/-- The `_slugify` helper of `src/main.py`: strip and lower-case the
input, replace runs of characters outside `[a-z0-9]` with `-`, collapse
repeated `-`, strip `-` at both ends, and fall back to `"episode"` when
the result is empty. -/
def _slugify (text : String) : String :=
  let cs := (stripWs text.data).map lowerCh
  let r := stripDash (collapseDash (subNonAlnum cs))
  if r.isEmpty then "episode" else ⟨r⟩

/-- Follows the spec's words (§4.4 "Slugify algorithm"): lower-case the
input, replace every maximal run of characters outside `[a-z0-9]` with a
single `-`, collapse repeated `-`, strip leading/trailing `-`; an empty
result becomes the literal `"episode"`.  Stated for comparison with the
source-derived `_slugify`. -/
def slugifySpec (text : String) : String :=
  let cs := text.data.map lowerCh
  let r := stripDash (collapseDash (subNonAlnum cs))
  if r.isEmpty then "episode" else ⟨r⟩

/-- The `_dt` coercion of `src/main.py`: a native timestamp is used
as-is; a string is parsed by the supplied model `iso` of
`datetime.fromisoformat`; anything else (or a parse failure) becomes the
earliest possible timestamp `0`. -/
def pyDt (iso : String → Option Nat) : Value → Nat
  | .vDt t => t
  | .vStr s => (iso s).getD 0
  | _ => 0

/-- Sort key of `/podcasts`: `_dt(x.get("published_at", datetime.min))`. -/
def podKey (iso : String → Option Nat) (d : Doc) : Nat :=
  pyDt iso ((dGet d "published_at").getD (.vDt 0))

/-- Sort key of `/events`: `_dt(x.get("date", datetime.min))`. -/
def evKey (iso : String → Option Nat) (d : Doc) : Nat :=
  pyDt iso ((dGet d "date").getD (.vDt 0))

/-- Condition list contributed by one optional string parameter: Python's
`if param:` adds a clause only for a present, non-empty value. -/
def strCond (p : Option String) (f : String) (mk : String → QCond) :
    List (String × QCond) :=
  match p with
  | some s => if s = "" then [] else [(f, mk s)]
  | none => []

/-- Condition list contributed by one optional boolean parameter: the
code tests `is not None`, so an explicit `false` still adds its clause. -/
def boolCond (p : Option Bool) (f : String) : List (String × QCond) :=
  match p with
  | some b => [(f, .eqv (.vBool b))]
  | none => []

/-- `$or` list contributed by a free-text parameter over the given fields. -/
def orCondsOf (p : Option String) (fields : List String) :
    List (String × QCond) :=
  match p with
  | some s => if s = "" then [] else fields.map (fun f => (f, QCond.regexI s))
  | none => []

/-- The filter built by `list_podcasts` from its query parameters. -/
def podcastQuery (q guest pillar tag : Option String) : Query :=
  { conds :=
      strCond guest "guest_name" QCond.regexI ++
      strCond pillar "pillars" (fun s => .eqv (.vStr s)) ++
      strCond tag "tags" (fun s => .eqv (.vStr s)),
    orConds := orCondsOf q ["title", "summary", "guest_name"] }

/-- `GET /principles`. -/
def list_principles (db : Option DB) : Paginated :=
  let items := match db with
    | some d => get_documents d.principle emptyQuery
    | none => []
  ⟨items.length, items⟩

/-- `GET /podcasts`: filter by the built query, then stable-sort newest
first (`reverse=True` keeps ties in store order). -/
def list_podcasts (iso : String → Option Nat) (db : Option DB)
    (q guest pillar tag : Option String) : Paginated :=
  let items := match db with
    | some d => get_documents d.podcastepisode (podcastQuery q guest pillar tag)
    | none => []
  let sorted := stableSort (fun a b => podKey iso b ≤ podKey iso a) items
  ⟨sorted.length, sorted⟩

/-- `GET /podcasts/{slug}`: first document matching the slug, else a 404
with "Episode not found". -/
def get_podcast_by_slug (db : Option DB) (slug : String) :
    Except (Nat × String) Doc :=
  let items := match db with
    | some d => get_documents d.podcastepisode ⟨[("slug", .eqv (.vStr slug))], []⟩
    | none => []
  match items with
  | [] => .error (404, "Episode not found")
  | x :: _ => .ok x

/-- The filter built by `list_resources` from its query parameters. -/
def resourceQuery (pillar level kind tag q : Option String) : Query :=
  { conds :=
      strCond pillar "pillars" (fun s => .eqv (.vStr s)) ++
      strCond level "level" (fun s => .eqv (.vStr s)) ++
      strCond kind "kind" (fun s => .eqv (.vStr s)) ++
      strCond tag "tags" (fun s => .eqv (.vStr s)),
    orConds := orCondsOf q ["title", "slug"] }

/-- `GET /resources`. -/
def list_resources (db : Option DB) (pillar level kind tag q : Option String) :
    Paginated :=
  let items := match db with
    | some d => get_documents d.resource (resourceQuery pillar level kind tag q)
    | none => []
  ⟨items.length, items⟩

/-- The filter built by `list_tools` from its query parameters
(`format` arrives under the wire name `fmt`). -/
def toolQuery (category format level pillar : Option String) : Query :=
  { conds :=
      strCond category "category" (fun s => .eqv (.vStr s)) ++
      strCond format "format" (fun s => .eqv (.vStr s)) ++
      strCond level "level" (fun s => .eqv (.vStr s)) ++
      strCond pillar "pillars" (fun s => .eqv (.vStr s)),
    orConds := [] }

/-- `GET /tools`. -/
def list_tools (db : Option DB) (category format level pillar : Option String) :
    Paginated :=
  let items := match db with
    | some d => get_documents d.tooltemplate (toolQuery category format level pillar)
    | none => []
  ⟨items.length, items⟩

/-- The filter built by `list_directory` from its query parameters
(`worked_with_cre8` arrives under the wire name `worked`; the boolean
parameters filter whenever present, even when `false`). -/
def directoryQuery (category pillar location : Option String)
    (featured worked_with_cre8 : Option Bool) (q : Option String) : Query :=
  { conds :=
      strCond category "category" (fun s => .eqv (.vStr s)) ++
      strCond pillar "pillars" (fun s => .eqv (.vStr s)) ++
      strCond location "location" QCond.regexI ++
      boolCond featured "featured" ++
      boolCond worked_with_cre8 "worked_with_cre8",
    orConds := orCondsOf q ["name", "company", "bio"] }

/-- First component of the `/directory` sort key:
`not x.get("featured", False)` (so featured profiles sort first). -/
def dirFeatKey (d : Doc) : Bool :=
  !(truthy ((dGet d "featured").getD (.vBool false)))

/-- Second component of the `/directory` sort key: `x.get("name", "")`.
A non-string stored name is modelled as the empty string. -/
def dirNameKey (d : Doc) : String :=
  match dGet d "name" with
  | some (.vStr s) => s
  | _ => ""

/-- Lexicographic "may come before" order on the `/directory` sort key
`(not featured, name)`. -/
def dirLe (a b : Doc) : Bool :=
  (!(dirFeatKey a) && dirFeatKey b) ||
    (dirFeatKey a = dirFeatKey b && !(decide (dirNameKey b < dirNameKey a)))

/-- `GET /directory`: filter, then stable-sort featured first and name
ascending among ties. -/
def list_directory (db : Option DB) (category pillar location : Option String)
    (featured worked_with_cre8 : Option Bool) (q : Option String) : Paginated :=
  let items := match db with
    | some d =>
      get_documents d.directoryprofile
        (directoryQuery category pillar location featured worked_with_cre8 q)
    | none => []
  let sorted := stableSort dirLe items
  ⟨sorted.length, sorted⟩

/-- `GET /events`: fetch all events, stable-sort by date descending
(missing or unparsable dates sort as the earliest timestamp), then, when
`upcoming` is supplied, keep events with a truthy raw `date` whose
coerced time is `≥ now` (upcoming) or `< now` (past). -/
def list_events (iso : String → Option Nat) (now : Nat) (db : Option DB)
    (upcoming : Option Bool) : Paginated :=
  let items := match db with
    | some d => get_documents d.event emptyQuery
    | none => []
  let sorted := stableSort (fun a b => evKey iso b ≤ evKey iso a) items
  let final := match upcoming with
    | none => sorted
    | some true => sorted.filter fun e => truthyField e "date" && decide (now ≤ evKey iso e)
    | some false => sorted.filter fun e => truthyField e "date" && decide (evKey iso e < now)
  ⟨final.length, final⟩

/-- The `created` counts reported by `POST /seed`. -/
structure SeedCreated where
  principles : Nat
  episodes : Nat
  profiles : Nat
  tools : Nat
  resources : Nat
  events : Nat
deriving DecidableEq

/-- The eight predefined principles seeded by `POST /seed`. -/
def principlePairs : List (String × String) :=
  [("capital", "Capital"), ("development", "Development"),
   ("investment", "Investment"), ("operations", "Operations"),
   ("leasing", "Leasing"), ("advisory", "Advisory"),
   ("technology", "Technology"), ("community", "Community")]

/-- The Principle document seeded for one `(key, title)` pair. -/
def principleDoc (p : String × String) : Doc :=
  [("key", .vStr p.1), ("title", .vStr p.2),
   ("description", .vStr ("Everything about " ++ p.2)),
   ("color", .vStr "emerald")]

/-- The sample PodcastEpisode document seeded by `POST /seed`. -/
def episodeSample (now : Nat) : Doc :=
  [("title", .vStr "Building the Future of CRE Networks"),
   ("slug", .vStr "future-of-cre-networks"),
   ("summary", .vStr "How collaborative ecosystems unlock better deals."),
   ("guest_name", .vStr "Alex Morgan"),
   ("pillars", .vList ["community", "capital"]),
   ("tags", .vList ["networking", "ecosystem"]),
   ("published_at", .vDt now),
   ("audio_url", .vStr "https://cdn.simplecast.com/audio.mp3")]

/-- The sample DirectoryProfile document seeded by `POST /seed`. -/
def profileSample : Doc :=
  [("name", .vStr "Horizon Capital Partners"),
   ("company", .vStr "Horizon Capital"),
   ("category", .vStr "Lender"),
   ("pillars", .vList ["capital"]),
   ("location", .vStr "New York, NY"),
   ("website", .vStr "https://example.com"),
   ("contact_email", .vStr "contact@example.com"),
   ("bio", .vStr "Debt and equity across core to opportunistic."),
   ("featured", .vBool true),
   ("worked_with_cre8", .vBool true)]

/-- The sample ToolTemplate document seeded by `POST /seed`. -/
def toolSample : Doc :=
  [("title", .vStr "Acquisition Underwriting Model"),
   ("slug", .vStr "acq-underwriting-model"),
   ("category", .vStr "acquisition"),
   ("format", .vStr "excel"),
   ("level", .vStr "intermediate"),
   ("pillars", .vList ["investment"]),
   ("download_url", .vStr "https://example.com/model.xlsx")]

/-- The sample Resource document seeded by `POST /seed`. -/
def resourceSample : Doc :=
  [("title", .vStr "LOI Template"),
   ("slug", .vStr "letter-of-intent-template"),
   ("kind", .vStr "download"),
   ("pillars", .vList ["leasing"]),
   ("tags", .vList ["templates"]),
   ("level", .vStr "beginner"),
   ("url", .vStr "https://example.com/loi.pdf")]

/-- The sample Event document seeded by `POST /seed`. -/
def eventSample (now : Nat) : Doc :=
  [("title", .vStr "CRE8 Summit 2025"),
   ("slug", .vStr "cre8-summit-2025"),
   ("date", .vDt now),
   ("location", .vStr "Austin, TX"),
   ("summary", .vStr "A gathering of dealmakers and innovators."),
   ("rsvp_url", .vStr "https://example.com/rsvp")]

/-- The live-database body of `POST /seed`: per collection, insert the
sample data if and only if the collection is currently empty, and count
the inserted records. -/
def seedLive (d : DB) (now : Nat) : SeedCreated × DB :=
  let pIns := d.principle.length = 0
  let princ :=
    if pIns then principlePairs.foldl (fun acc p => create_document acc (principleDoc p)) d.principle
    else d.principle
  let eIns := d.podcastepisode.length = 0
  let pods := if eIns then create_document d.podcastepisode (episodeSample now) else d.podcastepisode
  let dIns := d.directoryprofile.length = 0
  let dirs := if dIns then create_document d.directoryprofile profileSample else d.directoryprofile
  let tIns := d.tooltemplate.length = 0
  let tools := if tIns then create_document d.tooltemplate toolSample else d.tooltemplate
  let rIns := d.resource.length = 0
  let ress := if rIns then create_document d.resource resourceSample else d.resource
  let vIns := d.event.length = 0
  let evs := if vIns then create_document d.event (eventSample now) else d.event
  (⟨if pIns then principlePairs.length else 0, if eIns then 1 else 0,
    if dIns then 1 else 0, if tIns then 1 else 0,
    if rIns then 1 else 0, if vIns then 1 else 0⟩,
   ⟨princ, pods, ress, tools, dirs, evs⟩)

/-- `POST /seed`: a 500 when no database is configured, otherwise the
idempotent per-collection seeding. -/
def seed (db : Option DB) (now : Nat) : Except (Nat × String) (SeedCreated × DB) :=
  match db with
  | none => .error (500, "Database not configured")
  | some d => .ok (seedLive d now)

/-- Python's `a or b` on optional strings: the left operand wins when it
is truthy (present and non-empty), otherwise the right operand is
returned as-is. -/
def pyOr (a b : Option String) : Option String :=
  match a with
  | some s => if s = "" then b else some s
  | none => b

/-- An optional string stored as a document value (`None` becomes null). -/
def optStrVal : Option String → Value
  | some s => .vStr s
  | none => .vNone

/-- One enclosure of a feed entry, with its declared type and locations. -/
structure Enclosure where
  declType : Option String
  href : Option String
  url : Option String
deriving DecidableEq

/-- One parsed feed entry, holding exactly the attributes
`import_transistor` reads.  The fetch and the RSS parse are external
I/O; entries are modelled as already delivered by the parser, with the
published/updated time breakdowns already converted to timestamps. -/
structure Entry where
  title : Option String
  link : Option String
  id : Option String
  guid : Option String
  enclosures : List Enclosure
  audio : Option String
  mediaContentUrls : List (Option String)
  publishedParsed : Option Nat
  updatedParsed : Option Nat
  summary : Option String
  subtitle : Option String
  author : Option String
  authorNames : List (Option String)
  tagTerms : List (Option String)
deriving DecidableEq

/-- `entry.get("title", "Untitled")`. -/
def entryTitle (e : Entry) : String := e.title.getD "Untitled"

/-- `entry.get("id") or entry.get("guid") or link or title`. -/
def entryGuid (e : Entry) : String :=
  (pyOr (pyOr (pyOr e.id e.guid) e.link) (some (entryTitle e))).getD ""

/-- `_slugify(guid)[:80]`, the slug derived from the entry identifier. -/
def rawImportSlug (e : Entry) : String := ⟨(_slugify (entryGuid e)).data.take 80⟩

/-- The slug finally used by the import loop: the identifier-derived slug,
or — were it empty — the slugified title, also truncated to 80 characters. -/
def importSlug (e : Entry) : String :=
  if rawImportSlug e = "" then ⟨(_slugify (entryTitle e)).data.take 80⟩
  else rawImportSlug e

/-- The enclosure scan of the import loop: the `href or url` of the first
enclosure whose declared type starts with `audio` (`none` when no such
enclosure exists; the loop breaks at the first audio enclosure even when
its location is missing). -/
def findAudioEnclosure : List Enclosure → Option (Option String)
  | [] => none
  | en :: rest =>
    if isPrefixL "audio".data (en.declType.getD "").data then some (pyOr en.href en.url)
    else findAudioEnclosure rest

/-- The `audio_url` computed for one entry: the audio enclosure's
location if truthy, else `entry.get("audio") or` the first
media-content URL. -/
def entryAudio (e : Entry) : Option String :=
  let fallback := pyOr e.audio
    (match e.mediaContentUrls with
     | [] => none
     | u :: _ => u)
  match findAudioEnclosure e.enclosures with
  | some (some s) => if s = "" then fallback else some s
  | some none => fallback
  | none => fallback

/-- The `published_at` source timestamp: the published breakdown, else
the updated breakdown, else absent. -/
def entryPub (e : Entry) : Option Nat :=
  match e.publishedParsed with
  | some t => some t
  | none => e.updatedParsed

/-- `entry.get("summary") or entry.get("subtitle") or ""`. -/
def entrySummary (e : Entry) : String :=
  (pyOr (pyOr e.summary e.subtitle) (some "")).getD ""

/-- `entry.get("author") or` the first listed author's name. -/
def entryAuthor (e : Entry) : Option String :=
  pyOr e.author
    (match e.authorNames with
     | [] => none
     | a :: _ => a)

/-- The non-empty tag terms of the entry. -/
def entryTags (e : Entry) : List String :=
  e.tagTerms.filterMap fun t =>
    match t with
    | some s => if s = "" then none else some s
    | none => none

/-- The normalized record built for one entry by the import loop;
`published_at` defaults to the current time when neither source
timestamp is available. -/
def payloadOf (now : Nat) (e : Entry) : Doc :=
  [("title", .vStr (entryTitle e)),
   ("slug", .vStr (importSlug e)),
   ("summary", .vStr (entrySummary e)),
   ("audio_url", optStrVal (entryAudio e)),
   ("guest_name", optStrVal (entryAuthor e)),
   ("pillars", .vList []),
   ("tags", .vList (entryTags e)),
   ("published_at", .vDt ((entryPub e).getD now)),
   ("external_url", optStrVal e.link),
   ("source", .vStr "transistor")]

/-- Set field `f` of a document to `v`: replace its first occurrence, or
append the binding when the field is absent. -/
def setField : Doc → String → Value → Doc
  | [], f, v => [(f, v)]
  | (k, w) :: rest, f, v =>
    if k = f then (f, v) :: rest else (k, w) :: setField rest f v

/-- Set every field of `ps` in `d`, left to right. -/
def setFields (ps : Doc) (d : Doc) : Doc :=
  ps.foldl (fun acc kv => setField acc kv.1 kv.2) d

/-- Modelled from the spec: the store's update operation applied by
the import path to the matched existing document (§6: "a field-set update
combined with 'set only if record is newly created' and 'set to current
server time' semantics").  The field-set (`$set`) writes the payload;
"set only if record is newly created" (`$setOnInsert {created_at}`)
applies only when the update inserts a new record, and `update_one`
without an upsert flag never inserts, so on the matched existing
document that clause has no effect; "set to current server time"
(`$currentDate {updated_at}`) writes the current time. -/
def mongoUpdateExisting (setPayload : Doc) (now : Nat) (d : Doc) : Doc :=
  setField (setFields setPayload d) "updated_at" (.vDt now)

/-- Update the first document satisfying `p` (the one whose `_id` was
taken from the head of the `find` result) in place. -/
def updateFirstMatching (p : Doc → Bool) (f : Doc → Doc) : List Doc → List Doc
  | [] => []
  | d :: ds => if p d then f d :: ds else d :: updateFirstMatching p f ds

/-- The `find({"slug": slug})` filter of the upsert. -/
def slugQuery (s : String) : Query := ⟨[("slug", .eqv (.vStr s))], []⟩

/-- One iteration of the import loop: look up the slug, then update the
first matching document in place (updated) or insert the payload
(created).  Returns the new collection and whether a record was created. -/
def importOne (now : Nat) (coll : List Doc) (e : Entry) : List Doc × Bool :=
  let slug := importSlug e
  let payload := payloadOf now e
  match coll.filter (matchQuery (slugQuery slug)) with
  | [] => (create_document coll payload, true)
  | _ :: _ =>
    (updateFirstMatching (matchQuery (slugQuery slug))
      (mongoUpdateExisting payload now) coll, false)

/-- The import loop over all entries, threading the collection and
accumulating the `created` and `updated` counts. -/
def importEntries (now : Nat) : List Entry → List Doc → List Doc × Nat × Nat
  | [], coll => (coll, 0, 0)
  | e :: rest, coll =>
    let step := importOne now coll e
    let restR := importEntries now rest step.1
    (restR.1, (if step.2 then 1 else 0) + restR.2.1,
      (if step.2 then 0 else 1) + restR.2.2)

/-- The response of `POST /podcasts/import/transistor`. -/
structure ImportResp where
  status : String
  created : Nat
  updated : Nat
  total : Nat
  feed : String
deriving DecidableEq

/-- The literal default Transistor feed URL. -/
def defaultFeed : String := "https://feeds.transistor.fm/creconnection"

/-- Feed URL resolution: request body, else environment variable, else
the literal default. -/
def resolveFeed (reqFeed envFeed : Option String) : String :=
  (pyOr (pyOr reqFeed envFeed) (some defaultFeed)).getD defaultFeed

/-- `POST /podcasts/import/transistor`: a 500 when no database is
configured, a 500 when the RSS parser is unavailable, otherwise the
reconciliation of the (externally fetched and parsed) entries into the
PodcastEpisode collection, reporting created/updated counts and the
collection's total afterwards. -/
def import_transistor (db : Option DB) (feedparserAvailable : Bool)
    (reqFeed envFeed : Option String) (entries : List Entry) (now : Nat) :
    Except (Nat × String) (ImportResp × DB) :=
  match db with
  | none => .error (500, "Database not configured")
  | some d =>
    if feedparserAvailable then
      let r := importEntries now entries d.podcastepisode
      .ok (⟨"ok", r.2.1, r.2.2, r.1.length, resolveFeed reqFeed envFeed⟩,
        { d with podcastepisode := r.1 })
    else .error (500, "RSS parser not available. Install feedparser.")

/-- A shared concrete model of `datetime.fromisoformat` that fails on
every string, used to instantiate universally quantified theorems. -/
def isoNone : String → Option Nat := fun _ => none

/-- An entry carrying only an `id`, used to instantiate theorems. -/
def mkIdEntry (i : String) : Entry :=
  ⟨none, none, some i, none, [], none, [], none, none, none, none, none, [], []⟩

/-- A stored episode with no `published_at` field. -/
def pcNoDate : Doc := [("title", .vStr "no-date")]

/-- A stored episode whose `published_at` is an unparsable string. -/
def pcBadDate : Doc :=
  [("title", .vStr "bad-date"), ("published_at", .vStr "not-a-timestamp")]

/-- A stored event whose `date` is a present but unparsable string. -/
def evBadDate : Doc := [("title", .vStr "mystery"), ("date", .vStr "not-a-timestamp")]

/-- A stored episode titled "Alpha Deal". -/
def podAlpha : Doc :=
  [("title", .vStr "Alpha Deal"), ("summary", .vStr "closing costs"),
   ("published_at", .vDt 3)]

/-- A stored episode whose summary contains "alpha". -/
def podBeta : Doc :=
  [("title", .vStr "Beta"), ("summary", .vStr "contains ALPHA inside"),
   ("published_at", .vDt 2)]

/-- A stored episode matching neither "alpha" field. -/
def podGamma : Doc :=
  [("title", .vStr "Gamma"), ("summary", .vStr "nothing here"),
   ("published_at", .vDt 1)]

/-- A stored episode holding only the slug "s" (no `created_at`). -/
def slugDocS : Doc := [("slug", .vStr "s")]

/-- An entry whose identifier slugifies to 81 characters with a dash at
index 79, so the 80-character truncation ends in a dash. -/
def longGuidEntry : Entry := mkIdEntry ⟨List.replicate 79 'a' ++ ['-', 'b']⟩

/-- Normalize an optional string parameter: a supplied empty string
becomes the absent value. -/
def normP (p : Option String) : Option String :=
  match p with
  | some s => if s = "" then none else some s
  | none => none

/-- Follows the spec's words: a case-insensitive substring match of
`pat` against the string stored in field `f` (no match when the field is
missing or not a string). -/
def ciField (d : Doc) (f : String) (pat : String) : Bool :=
  match dGet d f with
  | some (.vStr s) => ciContains s pat
  | _ => false

/-- Follows the spec's words: the exact-match test "field `f` contains
`v`": membership when the field holds a list, equality when it holds a
string. -/
def fieldHas (d : Doc) (f : String) (v : String) : Bool :=
  match dGet d f with
  | some (.vList xs) => xs.contains v
  | some (.vStr s) => s = v
  | _ => false

/-- Follows the spec's words (§4.3 `/podcasts`): the conjunction of the
supplied filters, `q` matching title, summary or guest name
(OR-combined, case-insensitive substring), `guest` a case-insensitive
substring of the guest name, `pillar` and `tag` membership tests. -/
def podcastClaimPred (q guest pillar tag : Option String) (d : Doc) : Bool :=
  (match guest with
   | some g => ciField d "guest_name" g
   | none => true) &&
  (match pillar with
   | some p => fieldHas d "pillars" p
   | none => true) &&
  (match tag with
   | some t => fieldHas d "tags" t
   | none => true) &&
  (match q with
   | some s => ciField d "title" s || ciField d "summary" s || ciField d "guest_name" s
   | none => true)

/-- Follows the spec's words: the timestamp a stored `date`-like value
"parses to" — a native timestamp as-is, a string through the ISO parser,
anything else not at all. -/
def dateParses (iso : String → Option Nat) (v : Value) : Option Nat :=
  match v with
  | .vDt t => some t
  | .vStr s => iso s
  | _ => none

/-- Follows the spec's words (§4.3 `/events`): an event belongs to the
`upcoming` (resp. past) branch when its `date` field is present and
parses to a time `≥ now` (resp. `< now`). -/
def eventClaimPred (iso : String → Option Nat) (now : Nat) (upcoming : Bool)
    (e : Doc) : Bool :=
  match dGet e "date" with
  | some v =>
    match dateParses iso v with
    | some t => if upcoming then decide (now ≤ t) else decide (t < now)
    | none => false
  | none => false

/-- A well-formed stored date: absent, an empty string, a native
timestamp, or a string the ISO parser accepts. -/
def dateWellFormed (iso : String → Option Nat) (e : Doc) : Bool :=
  match dGet e "date" with
  | none => true
  | some (.vDt _) => true
  | some (.vStr s) => (s = "") || (iso s).isSome
  | some _ => false

/-- A stored event dated in the past of the witness instant `5`. -/
def evPast : Doc := [("title", .vStr "past"), ("date", .vDt 1)]

/-- A stored event dated in the future of the witness instant `5`. -/
def evFuture : Doc := [("title", .vStr "future"), ("date", .vDt 9)]

/-- A stored event with no `date` field. -/
def evNoDate : Doc := [("title", .vStr "undated")]

theorem insertLe_perm {α : Type} (le : α → α → Bool) (a : α) (l : List α) :
    (insertLe le a l).Perm (a :: l) := by
  induction l with
  | nil => simp [insertLe]
  | cons b l ih =>
    simp only [insertLe]
    split
    · exact List.Perm.refl _
    · exact (ih.cons b).trans (List.Perm.swap a b l)

theorem stableSort_perm {α : Type} (le : α → α → Bool) (l : List α) :
    (stableSort le l).Perm l := by
  induction l with
  | nil => simp [stableSort]
  | cons a l ih =>
    exact (insertLe_perm le a (stableSort le l)).trans (ih.cons a)

theorem insertLe_pairwise {α : Type} (le : α → α → Bool)
    (htot : ∀ a b, le a b = true ∨ le b a = true)
    (htrans : ∀ a b c, le a b = true → le b c = true → le a c = true)
    (a : α) (l : List α) (hl : l.Pairwise (fun x y => le x y = true)) :
    (insertLe le a l).Pairwise (fun x y => le x y = true) := by
  induction l with
  | nil => simp [insertLe]
  | cons b l ih =>
    rw [List.pairwise_cons] at hl
    obtain ⟨hb, hl'⟩ := hl
    simp only [insertLe]
    split
    · rename_i hab
      refine List.Pairwise.cons ?_ (List.Pairwise.cons hb hl')
      intro y hy
      rcases List.mem_cons.mp hy with rfl | hy
      · exact hab
      · exact htrans a b y hab (hb y hy)
    · rename_i hab
      have hba : le b a = true := by
        rcases htot a b with h | h
        · exact absurd h hab
        · exact h
      refine List.Pairwise.cons ?_ (ih hl')
      intro y hy
      have : y ∈ a :: l := (insertLe_perm le a l).mem_iff.mp hy
      rcases List.mem_cons.mp this with rfl | hy'
      · exact hba
      · exact hb y hy'

theorem stableSort_pairwise {α : Type} (le : α → α → Bool)
    (htot : ∀ a b, le a b = true ∨ le b a = true)
    (htrans : ∀ a b c, le a b = true → le b c = true → le a c = true)
    (l : List α) :
    (stableSort le l).Pairwise (fun x y => le x y = true) := by
  induction l with
  | nil => simp [stableSort]
  | cons a l ih =>
    exact insertLe_pairwise le htot htrans a (stableSort le l) ih

/-- C1: when no database connection is configured, every list endpoint
(`GET /principles`, `/podcasts`, `/resources`, `/tools`, `/directory`,
`/events`) returns the envelope `{"total": 0, "items": []}`,
`GET /podcasts/{slug}` returns 404 "Episode not found" for every slug,
and `POST /seed` and `POST /podcasts/import/transistor` fail with
status 500. -/
theorem c1_degraded_mode
    (slug : String) (iso : String → Option Nat) (now : Nat)
    (q guest pillar tag category level kind loc fmt : Option String)
    (featured worked upcoming : Option Bool) (fp : Bool)
    (reqFeed envFeed : Option String) (entries : List Entry) :
    list_principles none = ⟨0, []⟩ ∧
    list_podcasts iso none q guest pillar tag = ⟨0, []⟩ ∧
    list_resources none pillar level kind tag q = ⟨0, []⟩ ∧
    list_tools none category fmt level pillar = ⟨0, []⟩ ∧
    list_directory none category pillar loc featured worked q = ⟨0, []⟩ ∧
    list_events iso now none upcoming = ⟨0, []⟩ ∧
    get_podcast_by_slug none slug = .error (404, "Episode not found") ∧
    (seed none now).isOk = false ∧
    seed none now = .error (500, "Database not configured") ∧
    (import_transistor none fp reqFeed envFeed entries now).isOk = false ∧
    (import_transistor none fp reqFeed envFeed entries now =
      .error (500, "Database not configured")) := by
  refine ⟨rfl, rfl, rfl, rfl, rfl, ?_, rfl, rfl, rfl, rfl, rfl⟩
  cases upcoming with
  | none => rfl
  | some b => cases b <;> rfl

theorem foldl_create_document (xs : List Doc) (ps : List (String × String)) :
    ps.foldl (fun acc p => create_document acc (principleDoc p)) xs =
      xs ++ ps.map principleDoc := by
  induction ps generalizing xs with
  | nil => simp
  | cons p ps ih =>
    rw [List.foldl_cons, ih]
    simp [create_document]

theorem seedLive_fst (d : DB) (now : Nat) :
    (seedLive d now).1 =
      ⟨if d.principle.length = 0 then 8 else 0,
       if d.podcastepisode.length = 0 then 1 else 0,
       if d.directoryprofile.length = 0 then 1 else 0,
       if d.tooltemplate.length = 0 then 1 else 0,
       if d.resource.length = 0 then 1 else 0,
       if d.event.length = 0 then 1 else 0⟩ := by
  simp only [seedLive]
  norm_num [principlePairs]

theorem seedLive_snd (d : DB) (now : Nat) :
    (seedLive d now).2 =
      ⟨if d.principle.length = 0 then d.principle ++ principlePairs.map principleDoc
        else d.principle,
       if d.podcastepisode.length = 0 then d.podcastepisode ++ [episodeSample now]
        else d.podcastepisode,
       if d.resource.length = 0 then d.resource ++ [resourceSample] else d.resource,
       if d.tooltemplate.length = 0 then d.tooltemplate ++ [toolSample]
        else d.tooltemplate,
       if d.directoryprofile.length = 0 then d.directoryprofile ++ [profileSample]
        else d.directoryprofile,
       if d.event.length = 0 then d.event ++ [eventSample now] else d.event⟩ := by
  simp only [seedLive, foldl_create_document]
  simp only [create_document]

theorem seedAgainNeZero (xs l : List Doc) (h : l.length ≠ 0) :
    ¬((if xs.length = 0 then xs ++ l else xs).length = 0) := by
  split_ifs with hx
  · rw [List.length_append]
    omega
  · exact hx

/-- C2: with a live database, `POST /seed` inserts into each of the six
collections exactly when that collection is empty — all 8 predefined
principles, one sample record for each other empty collection — reports
those counts in `created`, and a second consecutive call inserts
nothing, reports all counts 0, and leaves every collection unchanged. -/
theorem c2_seed_iff_empty_and_idempotent (d : DB) (now now2 : Nat) :
    seed (some d) now = .ok (seedLive d now) ∧
    ((seedLive d now).1.principles = if d.principle.length = 0 then 8 else 0) ∧
    ((seedLive d now).2.principle =
      if d.principle.length = 0 then d.principle ++ principlePairs.map principleDoc
      else d.principle) ∧
    ((seedLive d now).1.episodes = if d.podcastepisode.length = 0 then 1 else 0) ∧
    ((seedLive d now).2.podcastepisode =
      if d.podcastepisode.length = 0 then d.podcastepisode ++ [episodeSample now]
      else d.podcastepisode) ∧
    ((seedLive d now).1.profiles = if d.directoryprofile.length = 0 then 1 else 0) ∧
    ((seedLive d now).2.directoryprofile =
      if d.directoryprofile.length = 0 then d.directoryprofile ++ [profileSample]
      else d.directoryprofile) ∧
    ((seedLive d now).1.tools = if d.tooltemplate.length = 0 then 1 else 0) ∧
    ((seedLive d now).2.tooltemplate =
      if d.tooltemplate.length = 0 then d.tooltemplate ++ [toolSample]
      else d.tooltemplate) ∧
    ((seedLive d now).1.resources = if d.resource.length = 0 then 1 else 0) ∧
    ((seedLive d now).2.resource =
      if d.resource.length = 0 then d.resource ++ [resourceSample]
      else d.resource) ∧
    ((seedLive d now).1.events = if d.event.length = 0 then 1 else 0) ∧
    ((seedLive d now).2.event =
      if d.event.length = 0 then d.event ++ [eventSample now]
      else d.event) ∧
    (seedLive (seedLive d now).2 now2).1 = ⟨0, 0, 0, 0, 0, 0⟩ ∧
    (seedLive (seedLive d now).2 now2).2 = (seedLive d now).2 := by
  have hp : ¬((seedLive d now).2.principle.length = 0) := by
    simp only [seedLive_snd]
    exact seedAgainNeZero _ _ (by simp [principlePairs])
  have he : ¬((seedLive d now).2.podcastepisode.length = 0) := by
    simp only [seedLive_snd]
    exact seedAgainNeZero _ _ (by simp)
  have hd : ¬((seedLive d now).2.directoryprofile.length = 0) := by
    simp only [seedLive_snd]
    exact seedAgainNeZero _ _ (by simp)
  have ht : ¬((seedLive d now).2.tooltemplate.length = 0) := by
    simp only [seedLive_snd]
    exact seedAgainNeZero _ _ (by simp)
  have hr : ¬((seedLive d now).2.resource.length = 0) := by
    simp only [seedLive_snd]
    exact seedAgainNeZero _ _ (by simp)
  have hv : ¬((seedLive d now).2.event.length = 0) := by
    simp only [seedLive_snd]
    exact seedAgainNeZero _ _ (by simp)
  refine ⟨rfl, by simp [seedLive_fst], by simp [seedLive_snd],
    by simp [seedLive_fst], by simp [seedLive_snd],
    by simp [seedLive_fst], by simp [seedLive_snd],
    by simp [seedLive_fst], by simp [seedLive_snd],
    by simp [seedLive_fst], by simp [seedLive_snd],
    by simp [seedLive_fst], by simp [seedLive_snd], ?_, ?_⟩
  · rw [seedLive_fst (seedLive d now).2 now2]
    simp only [if_neg hp, if_neg he, if_neg hd, if_neg ht, if_neg hr, if_neg hv]
  · rw [seedLive_snd (seedLive d now).2 now2]
    simp only [if_neg hp, if_neg he, if_neg hd, if_neg ht, if_neg hr, if_neg hv]

theorem ws_not_alnum (c : Char) (h : c.isWhitespace = true) :
    isLowerAlnum c = false := by
  simp only [Char.isWhitespace, Bool.or_eq_true, decide_eq_true_eq] at h
  rcases h with ((h | h) | h) | h <;> subst h <;> decide

theorem lowerCh_ws (c : Char) (h : c.isWhitespace = true) : lowerCh c = c := by
  simp only [Char.isWhitespace, Bool.or_eq_true, decide_eq_true_eq] at h
  rcases h with ((h | h) | h) | h <;> subst h <;> decide

theorem alnum_ne_dash (c : Char) (h : isLowerAlnum c = true) : ¬(c = '-') := by
  intro hc
  subst hc
  simp [isLowerAlnum] at h

theorem subNonAlnumAux_alnum (r : Bool) (c : Char) (h : isLowerAlnum c = true)
    (t : List Char) : subNonAlnumAux r (c :: t) = c :: subNonAlnumAux false t := by
  simp [subNonAlnumAux, h]

theorem subNonAlnumAux_bad_true (c : Char) (h : isLowerAlnum c = false)
    (t : List Char) : subNonAlnumAux true (c :: t) = subNonAlnumAux true t := by
  simp [subNonAlnumAux, h]

theorem subNonAlnumAux_bad_false (c : Char) (h : isLowerAlnum c = false)
    (t : List Char) : subNonAlnumAux false (c :: t) = '-' :: subNonAlnumAux true t := by
  simp [subNonAlnumAux, h]

theorem collapseDashAux_dash (b : Bool) (v : List Char) :
    collapseDashAux b ('-' :: v) =
      if b then collapseDashAux true v else '-' :: collapseDashAux true v := by
  simp [collapseDashAux]

theorem collapseDashAux_nondash (b : Bool) (c : Char) (h : ¬(c = '-'))
    (v : List Char) : collapseDashAux b (c :: v) = c :: collapseDashAux false v := by
  simp [collapseDashAux, h]

theorem subNonAlnumAux_allBad_true (xs : List Char)
    (hxs : ∀ c ∈ xs, isLowerAlnum c = false) : subNonAlnumAux true xs = [] := by
  induction xs with
  | nil => rfl
  | cons c rest ih =>
    rw [subNonAlnumAux_bad_true c (hxs c (List.mem_cons_self c rest))]
    exact ih fun d hd => hxs d (List.mem_cons_of_mem c hd)

theorem stripDashTrail_cons (c : Char) (v : List Char) :
    stripDashTrail (c :: v) =
      match stripDashTrail v with
      | [] => if c = '-' then [] else [c]
      | ds => c :: ds := rfl

theorem trailBad_invariant (xs : List Char)
    (hxs : ∀ c ∈ xs, isLowerAlnum c = false) :
    ∀ (zs : List Char) (b r : Bool),
    stripDashTrail (collapseDashAux b (subNonAlnumAux r (zs ++ xs))) =
      stripDashTrail (collapseDashAux b (subNonAlnumAux r zs)) := by
  intro zs
  induction zs with
  | nil =>
    intro b r
    cases r with
    | true =>
      rw [List.nil_append, subNonAlnumAux_allBad_true xs hxs]
      rfl
    | false =>
      cases xs with
      | nil => rfl
      | cons c rest =>
        have hc := hxs c (List.mem_cons_self c rest)
        have hrest : subNonAlnumAux true rest = [] :=
          subNonAlnumAux_allBad_true rest fun d hd => hxs d (List.mem_cons_of_mem c hd)
        rw [List.nil_append, subNonAlnumAux_bad_false c hc, hrest, collapseDashAux_dash]
        cases b <;> rfl
  | cons c zs ih =>
    intro b r
    have hstep : (c :: zs) ++ xs = c :: (zs ++ xs) := rfl
    rw [hstep]
    by_cases hc : isLowerAlnum c = true
    · have hnd : ¬(c = '-') := alnum_ne_dash c hc
      rw [subNonAlnumAux_alnum r c hc, subNonAlnumAux_alnum r c hc,
        collapseDashAux_nondash b c hnd, collapseDashAux_nondash b c hnd,
        stripDashTrail_cons, stripDashTrail_cons, ih false false]
    · have hc' : isLowerAlnum c = false := by
        cases h : isLowerAlnum c
        · rfl
        · exact absurd h hc
      cases r with
      | true =>
        rw [subNonAlnumAux_bad_true c hc', subNonAlnumAux_bad_true c hc']
        exact ih b true
      | false =>
        rw [subNonAlnumAux_bad_false c hc', subNonAlnumAux_bad_false c hc',
          collapseDashAux_dash, collapseDashAux_dash]
        cases b with
        | true => exact ih true true
        | false =>
          simp only [Bool.false_eq_true, if_false]
          rw [stripDashTrail_cons, stripDashTrail_cons, ih true true]

theorem stripDash_dash_cons (v : List Char) : stripDash ('-' :: v) = stripDash v := by
  simp only [stripDash, stripDashTrail_cons]
  cases h : stripDashTrail v with
  | nil => rfl
  | cons d ds => simp [stripDashLead]

theorem flagBridge (t : List Char) :
    stripDash (collapseDashAux false (subNonAlnumAux false t)) =
      stripDash (collapseDashAux true (subNonAlnumAux true t)) := by
  cases t with
  | nil => rfl
  | cons c t' =>
    by_cases hc : isLowerAlnum c = true
    · have hnd : ¬(c = '-') := alnum_ne_dash c hc
      rw [subNonAlnumAux_alnum false c hc, subNonAlnumAux_alnum true c hc,
        collapseDashAux_nondash false c hnd, collapseDashAux_nondash true c hnd]
    · have hc' : isLowerAlnum c = false := by
        cases h : isLowerAlnum c
        · rfl
        · exact absurd h hc
      rw [subNonAlnumAux_bad_false c hc', subNonAlnumAux_bad_true c hc',
        collapseDashAux_dash]
      simp only [Bool.false_eq_true, if_false]
      exact stripDash_dash_cons _

theorem leadBad_invariant (xs : List Char)
    (hxs : ∀ c ∈ xs, isLowerAlnum c = false) (u : List Char) :
    stripDash (collapseDash (subNonAlnum (xs ++ u))) =
      stripDash (collapseDash (subNonAlnum u)) := by
  induction xs with
  | nil => rfl
  | cons c xs' ih =>
    have hc := hxs c (List.mem_cons_self c xs')
    have ih' := ih fun d hd => hxs d (List.mem_cons_of_mem c hd)
    have hstep : (c :: xs') ++ u = c :: (xs' ++ u) := rfl
    simp only [collapseDash, subNonAlnum] at ih' ⊢
    rw [hstep, subNonAlnumAux_bad_false c hc, collapseDashAux_dash]
    simp only [Bool.false_eq_true, if_false]
    rw [stripDash_dash_cons]
    calc stripDash (collapseDashAux true (subNonAlnumAux true (xs' ++ u)))
        = stripDash (collapseDashAux false (subNonAlnumAux false (xs' ++ u))) :=
          (flagBridge (xs' ++ u)).symm
      _ = stripDash (collapseDashAux false (subNonAlnumAux false u)) := ih'

theorem stripWsTrail_decomp (cs : List Char) :
    cs = stripWsTrail cs ++ (cs.reverse.takeWhile Char.isWhitespace).reverse := by
  conv_lhs => rw [← List.reverse_reverse cs,
    ← List.takeWhile_append_dropWhile Char.isWhitespace cs.reverse]
  rw [List.reverse_append]
  rfl

theorem map_lowerCh_ws (l : List Char) (h : ∀ c ∈ l, c.isWhitespace = true) :
    l.map lowerCh = l := by
  rw [List.map_congr_left fun c hc => lowerCh_ws c (h c hc)]
  exact List.map_id l

theorem slugPipeline_stripWs (cs : List Char) :
    stripDash (collapseDash (subNonAlnum ((stripWs cs).map lowerCh))) =
      stripDash (collapseDash (subNonAlnum (cs.map lowerCh))) := by
  have hpost := stripWsTrail_decomp cs
  have hpre : stripWsTrail cs =
      (stripWsTrail cs).takeWhile Char.isWhitespace ++ stripWs cs := by
    simp only [stripWs, stripWsLead]
    exact (List.takeWhile_append_dropWhile Char.isWhitespace (stripWsTrail cs)).symm
  have hcs : cs =
      ((stripWsTrail cs).takeWhile Char.isWhitespace ++ stripWs cs) ++
        (cs.reverse.takeWhile Char.isWhitespace).reverse := by
    conv_lhs => rw [hpost, hpre]
  have hpostws : ∀ c ∈ (cs.reverse.takeWhile Char.isWhitespace).reverse,
      isLowerAlnum c = false := by
    intro c hc
    exact ws_not_alnum c (List.mem_takeWhile_imp (List.mem_reverse.mp hc))
  have hprews : ∀ c ∈ (stripWsTrail cs).takeWhile Char.isWhitespace,
      isLowerAlnum c = false := fun c hc => ws_not_alnum c (List.mem_takeWhile_imp hc)
  conv_rhs => rw [hcs]
  rw [List.map_append, List.map_append,
    map_lowerCh_ws _ (fun c hc => List.mem_takeWhile_imp (List.mem_reverse.mp hc)),
    map_lowerCh_ws _ (fun c hc => List.mem_takeWhile_imp hc)]
  have htrail := trailBad_invariant (cs.reverse.takeWhile Char.isWhitespace).reverse
    hpostws ((stripWsTrail cs).takeWhile Char.isWhitespace ++ (stripWs cs).map lowerCh)
    false false
  have hlead := leadBad_invariant ((stripWsTrail cs).takeWhile Char.isWhitespace)
    hprews ((stripWs cs).map lowerCh)
  calc stripDash (collapseDash (subNonAlnum ((stripWs cs).map lowerCh)))
      = stripDash (collapseDash (subNonAlnum
          ((stripWsTrail cs).takeWhile Char.isWhitespace ++ (stripWs cs).map lowerCh))) :=
        hlead.symm
    _ = stripDash (collapseDash (subNonAlnum
          (((stripWsTrail cs).takeWhile Char.isWhitespace ++ (stripWs cs).map lowerCh) ++
            (cs.reverse.takeWhile Char.isWhitespace).reverse))) := by
        simp only [stripDash, collapseDash, subNonAlnum]
        rw [htrail]

theorem slugify_eq_spec (s : String) : _slugify s = slugifySpec s := by
  simp only [_slugify, slugifySpec]
  rw [slugPipeline_stripWs s.data]

theorem slugifySpec_allPunct (s : String)
    (h : ∀ c ∈ s.data, isLowerAlnum (lowerCh c) = false) :
    slugifySpec s = "episode" := by
  simp only [slugifySpec]
  have hbad : ∀ c ∈ s.data.map lowerCh, isLowerAlnum c = false := by
    intro c hc
    obtain ⟨a, ha, rfl⟩ := List.mem_map.mp hc
    exact h a ha
  cases hd : s.data.map lowerCh with
  | nil => rfl
  | cons c t =>
    have hc : isLowerAlnum c = false := hbad c (by rw [hd]; exact List.mem_cons_self c t)
    have ht : subNonAlnumAux true t = [] := subNonAlnumAux_allBad_true t
      (fun d hdm => hbad d (by rw [hd]; exact List.mem_cons_of_mem c hdm))
    simp only [subNonAlnum, subNonAlnumAux_bad_false c hc, ht, collapseDash,
      collapseDashAux_dash]
    rfl

/-- C4: `_slugify` agrees everywhere with the spec's algorithm
(lower-case, replace each maximal run outside `[a-z0-9]` by one `-`,
collapse repeated `-`, strip `-` at both ends, `"episode"` when empty);
in particular `"Hello, World!  2025"` maps to `"hello-world-2025"`, and
any input without a character that lower-cases into `[a-z0-9]` maps to
`"episode"`. -/
theorem c4_slugify_algorithm :
    (∀ s, _slugify s = slugifySpec s) ∧
    _slugify "Hello, World!  2025" = "hello-world-2025" ∧
    (∀ s : String, (∀ c ∈ s.data, isLowerAlnum (lowerCh c) = false) →
      _slugify s = "episode") := by
  refine ⟨slugify_eq_spec, by decide, ?_⟩
  intro s hs
  rw [slugify_eq_spec s]
  exact slugifySpec_allPunct s hs

/-- Witness for C4: the all-punctuation clause applied to `"?!.,;"`. -/
theorem c4_slugify_algorithm_witness :
    (∀ c ∈ ("?!.,;" : String).data, isLowerAlnum (lowerCh c) = false) ∧
      _slugify "?!.,;" = "episode" :=
  ⟨by decide, c4_slugify_algorithm.2.2 "?!.,;" (by decide)⟩

theorem slugify_ne_empty (s : String) : ¬(_slugify s = "") := by
  simp only [_slugify]
  split
  · intro h
    exact absurd (congrArg String.data h) (by decide)
  · rename_i hne
    intro h
    have := congrArg String.data h
    simp only at this
    rw [this] at hne
    simp at hne

theorem rawImportSlug_ne_empty (e : Entry) : ¬(rawImportSlug e = "") := by
  simp only [rawImportSlug]
  intro h
  have hdata := congrArg String.data h
  simp only at hdata
  rcases List.take_eq_nil_iff.mp hdata with h80 | hnil
  · cases h80
  · exact slugify_ne_empty (entryGuid e) (String.ext hnil)

theorem subNonAlnumAux_chars (r : Bool) (cs : List Char) :
    ∀ c ∈ subNonAlnumAux r cs, isLowerAlnum c = true ∨ c = '-' := by
  induction cs generalizing r with
  | nil => intro c hc; cases hc
  | cons a cs ih =>
    intro c hc
    by_cases ha : isLowerAlnum a = true
    · rw [subNonAlnumAux_alnum r a ha] at hc
      rcases List.mem_cons.mp hc with rfl | hc'
      · exact Or.inl ha
      · exact ih false c hc'
    · have ha' : isLowerAlnum a = false := by
        cases h : isLowerAlnum a
        · rfl
        · exact absurd h ha
      cases r with
      | true =>
        rw [subNonAlnumAux_bad_true a ha'] at hc
        exact ih true c hc
      | false =>
        rw [subNonAlnumAux_bad_false a ha'] at hc
        rcases List.mem_cons.mp hc with rfl | hc'
        · exact Or.inr rfl
        · exact ih true c hc'

theorem collapseDashAux_subset (b : Bool) (v : List Char) :
    ∀ c ∈ collapseDashAux b v, c ∈ v := by
  induction v generalizing b with
  | nil => intro c hc; cases hc
  | cons a v ih =>
    intro c hc
    by_cases ha : a = '-'
    · subst ha
      rw [collapseDashAux_dash] at hc
      cases b with
      | true => exact List.mem_cons_of_mem _ (ih true c hc)
      | false =>
        simp only [Bool.false_eq_true, if_false] at hc
        rcases List.mem_cons.mp hc with rfl | hc'
        · exact List.mem_cons_self _ _
        · exact List.mem_cons_of_mem _ (ih true c hc')
    · rw [collapseDashAux_nondash b a ha] at hc
      rcases List.mem_cons.mp hc with rfl | hc'
      · exact List.mem_cons_self _ _
      · exact List.mem_cons_of_mem _ (ih false c hc')

theorem stripDashTrail_subset (v : List Char) :
    ∀ c ∈ stripDashTrail v, c ∈ v := by
  induction v with
  | nil => intro c hc; cases hc
  | cons a v ih =>
    intro c hc
    rw [stripDashTrail_cons] at hc
    cases hde : stripDashTrail v with
    | nil =>
      rw [hde] at hc
      simp only at hc
      split at hc
      · cases hc
      · rcases List.mem_cons.mp hc with rfl | hc'
        · exact List.mem_cons_self _ _
        · cases hc'
    | cons d ds =>
      rw [hde] at hc
      rcases List.mem_cons.mp hc with rfl | hc'
      · exact List.mem_cons_self _ _
      · exact List.mem_cons_of_mem _ (ih c (hde.symm ▸ hc'))

theorem stripDash_subset (v : List Char) : ∀ c ∈ stripDash v, c ∈ v := by
  intro c hc
  exact stripDashTrail_subset v c
    (List.Sublist.mem hc (List.dropWhile_sublist _))

theorem slugify_chars (s : String) :
    ∀ c ∈ (_slugify s).data, isLowerAlnum c = true ∨ c = '-' := by
  simp only [_slugify]
  split
  · intro c hc
    left
    have hc' : c ∈ ['e', 'p', 'i', 's', 'o', 'd', 'e'] := hc
    fin_cases hc' <;> decide
  · intro c hc
    simp only at hc
    have h1 := stripDash_subset _ c hc
    have h2 := collapseDashAux_subset false _ c (by
      simpa only [collapseDash] using h1)
    exact subNonAlnumAux_chars false _ c (by
      simpa only [subNonAlnum] using h2)

theorem stripDashLead_head (v : List Char) (c : Char)
    (h : (stripDashLead v).head? = some c) : ¬(c = '-') := by
  induction v with
  | nil => cases h
  | cons a v ih =>
    by_cases ha : a = '-'
    · subst ha
      rw [show stripDashLead ('-' :: v) = stripDashLead v from by
        simp [stripDashLead]] at h
      exact ih h
    · rw [show stripDashLead (a :: v) = a :: v from by
        simp [stripDashLead, List.dropWhile_cons, ha]] at h
      cases h
      exact ha

theorem slugify_head (s : String) (c : Char)
    (h : (_slugify s).data.head? = some c) : ¬(c = '-') := by
  revert h
  simp only [_slugify]
  split
  · intro h
    cases h
    decide
  · intro h
    simp only at h
    exact stripDashLead_head _ c h

/-- C10 (amended): `_slugify` never returns an empty string, so the
fallback branch that re-slugifies the title is unreachable; every slug
produced by the import is a non-empty string of at most 80 characters
over lowercase letters, digits and hyphens with no leading hyphen —
though the 80-character truncation can leave a trailing hyphen. -/
theorem c10_import_slug_shape (e : Entry) :
    ¬(rawImportSlug e = "") ∧
    (importSlug e = rawImportSlug e) ∧
    ¬(importSlug e = "") ∧
    (importSlug e).data.length ≤ 80 ∧
    (∀ c ∈ (importSlug e).data, isLowerAlnum c = true ∨ c = '-') ∧
    (∀ c, (importSlug e).data.head? = some c → ¬(c = '-')) := by
  have hne := rawImportSlug_ne_empty e
  have heq : importSlug e = rawImportSlug e := by simp [importSlug, hne]
  refine ⟨hne, heq, heq ▸ hne, ?_, ?_, ?_⟩
  · rw [heq]
    simp only [rawImportSlug]
    rw [List.length_take]
    exact min_le_left _ _
  · intro c hc
    rw [heq] at hc
    simp only [rawImportSlug] at hc
    exact slugify_chars _ c (List.take_subset _ _ hc)
  · intro c hch
    rw [heq] at hch
    simp only [rawImportSlug] at hch
    apply slugify_head (entryGuid e) c
    cases hl : (_slugify (entryGuid e)).data with
    | nil => rw [hl] at hch; cases hch
    | cons a t =>
      rw [hl] at hch
      exact hch

/-- Counterexample for C10 as stated: the entry whose identifier is 79
`a`s followed by `-b` slugifies to 81 characters, and the 80-character
truncation used by the import leaves a trailing hyphen. -/
theorem c10_counterexample :
    (importSlug longGuidEntry).data.getLast? = some '-' ∧
    (importSlug longGuidEntry).data.length = 80 := by decide

theorem strCond_normP (p : Option String) (f : String) (mk : String → QCond) :
    strCond (normP p) f mk = strCond p f mk := by
  cases p with
  | none => rfl
  | some s =>
    by_cases hs : s = ""
    · subst hs; rfl
    · simp [normP, strCond, hs]

theorem orCondsOf_normP (p : Option String) (fs : List String) :
    orCondsOf (normP p) fs = orCondsOf p fs := by
  cases p with
  | none => rfl
  | some s =>
    by_cases hs : s = ""
    · subst hs; rfl
    · simp [normP, orCondsOf, hs]

theorem filter_matchQuery_empty (l : List Doc) :
    l.filter (matchQuery emptyQuery) = l := by
  induction l with
  | nil => rfl
  | cons x l ih => simp [List.filter_cons, matchQuery, emptyQuery, ih]

theorem filter_matchQuery_single (f : String) (c : QCond) (l : List Doc) :
    l.filter (matchQuery ⟨[(f, c)], []⟩) = l.filter (fun x => matchCond x f c) := by
  induction l with
  | nil => rfl
  | cons x l ih => simp [List.filter_cons, matchQuery, ih]

/-- C9: a string-valued query parameter supplied as the empty string is
treated exactly like an absent parameter on every list endpoint (so
`GET /podcasts?q=` returns every stored episode), whereas the boolean
directory parameters `featured` and `worked` (tested against `None`)
apply their filter even when explicitly false. -/
theorem c9_empty_string_params_and_bool_filters :
    (∀ (iso : String → Option Nat) (db : Option DB) (q g p t : Option String),
      list_podcasts iso db (normP q) (normP g) (normP p) (normP t) =
        list_podcasts iso db q g p t) ∧
    (∀ (db : Option DB) (pi le ki ta q : Option String),
      list_resources db (normP pi) (normP le) (normP ki) (normP ta) (normP q) =
        list_resources db pi le ki ta q) ∧
    (∀ (db : Option DB) (c f le pi : Option String),
      list_tools db (normP c) (normP f) (normP le) (normP pi) =
        list_tools db c f le pi) ∧
    (∀ (db : Option DB) (c pi lo : Option String) (fe wo : Option Bool)
      (q : Option String),
      list_directory db (normP c) (normP pi) (normP lo) fe wo (normP q) =
        list_directory db c pi lo fe wo q) ∧
    (∀ (iso : String → Option Nat) (d : DB),
      (list_podcasts iso (some d) (some "") none none none).items =
        stableSort (fun a b => podKey iso b ≤ podKey iso a) d.podcastepisode) ∧
    (∀ (d : DB) (b : Bool),
      (list_directory (some d) none none none (some b) none none).items =
        stableSort dirLe (d.directoryprofile.filter fun x =>
          matchCond x "featured" (.eqv (.vBool b)))) ∧
    (∀ (d : DB) (b : Bool),
      (list_directory (some d) none none none none (some b) none).items =
        stableSort dirLe (d.directoryprofile.filter fun x =>
          matchCond x "worked_with_cre8" (.eqv (.vBool b)))) := by
  refine ⟨?_, ?_, ?_, ?_, ?_, ?_, ?_⟩
  · intro iso db q g p t
    simp only [list_podcasts, podcastQuery, strCond_normP, orCondsOf_normP]
  · intro db pi le ki ta q
    simp only [list_resources, resourceQuery, strCond_normP, orCondsOf_normP]
  · intro db c f le pi
    simp only [list_tools, toolQuery, strCond_normP]
  · intro db c pi lo fe wo q
    simp only [list_directory, directoryQuery, strCond_normP, orCondsOf_normP]
  · intro iso d
    have h : podcastQuery (some "") none none none = emptyQuery := by
      simp [podcastQuery, strCond, orCondsOf, emptyQuery]
    simp only [list_podcasts, h, get_documents, filter_matchQuery_empty]
  · intro d b
    simp only [list_directory, directoryQuery, strCond, boolCond, orCondsOf,
      get_documents, List.nil_append, List.append_nil]
    rw [filter_matchQuery_single]
  · intro d b
    simp only [list_directory, directoryQuery, strCond, boolCond, orCondsOf,
      get_documents, List.nil_append, List.append_nil]
    rw [filter_matchQuery_single]

theorem strCond_of_ne (p : Option String) (hp : ¬(p = some "")) (f : String)
    (mk : String → QCond) :
    strCond p f mk =
      match p with
      | none => []
      | some s => [(f, mk s)] := by
  cases p with
  | none => rfl
  | some s =>
    have hs : ¬(s = "") := fun h => hp (by rw [h])
    simp [strCond, hs]

theorem orCondsOf_of_ne (p : Option String) (hp : ¬(p = some "")) (fs : List String) :
    orCondsOf p fs =
      match p with
      | none => []
      | some s => fs.map (fun f => (f, QCond.regexI s)) := by
  cases p with
  | none => rfl
  | some s =>
    have hs : ¬(s = "") := fun h => hp (by rw [h])
    simp [orCondsOf, hs]

theorem matchCond_regexI (x : Doc) (f pat : String) :
    matchCond x f (.regexI pat) = ciField x f pat := rfl

theorem matchCond_eqv_str (x : Doc) (f v : String) :
    matchCond x f (.eqv (.vStr v)) = fieldHas x f v := by
  simp only [matchCond, fieldHas]
  cases h : dGet x f with
  | none => rfl
  | some w => cases w <;> simp

theorem matchQuery_podcastQuery (q g p t : Option String) (hq : ¬(q = some ""))
    (hg : ¬(g = some "")) (hp : ¬(p = some "")) (ht : ¬(t = some "")) (x : Doc) :
    matchQuery (podcastQuery q g p t) x = podcastClaimPred q g p t x := by
  simp only [podcastQuery, strCond_of_ne g hg, strCond_of_ne p hp,
    strCond_of_ne t ht, orCondsOf_of_ne q hq]
  cases q <;> cases g <;> cases p <;> cases t <;>
    simp [matchQuery, podcastClaimPred, matchCond_regexI, matchCond_eqv_str,
      List.all_append, Bool.and_assoc, Bool.or_assoc]

/-- C5: for every store and every combination of supplied (non-empty)
`q`, `guest`, `pillar`, `tag` parameters, `GET /podcasts` returns
exactly the episodes satisfying the conjunction of the supplied filters:
`q` a case-insensitive substring of title, summary or guest name
(OR-combined), `guest` a case-insensitive substring of the guest name,
`pillar` and `tag` exact membership tests. -/
theorem c5_podcast_filter_semantics (iso : String → Option Nat) (d : DB)
    (q g p t : Option String) (hq : ¬(q = some "")) (hg : ¬(g = some ""))
    (hp : ¬(p = some "")) (ht : ¬(t = some "")) :
    ((list_podcasts iso (some d) q g p t).items).Perm
      (d.podcastepisode.filter (podcastClaimPred q g p t)) := by
  simp only [list_podcasts, get_documents]
  refine (stableSort_perm _ _).trans ?_
  rw [List.filter_congr fun x _ => matchQuery_podcastQuery q g p t hq hg hp ht x]

/-- Witness for C5: the free-text search `q = "alpha"` on a concrete
store keeps the episode titled "Alpha Deal" and the one whose summary
contains "ALPHA", and drops the episode matching neither. -/
theorem c5_podcast_filter_semantics_witness :
    ¬(some "alpha" = some "") ∧
    [podAlpha, podBeta, podGamma].filter
        (podcastClaimPred (some "alpha") none none none) = [podAlpha, podBeta] ∧
    ((list_podcasts isoNone (some ⟨[], [podAlpha, podBeta, podGamma], [], [], [], []⟩)
        (some "alpha") none none none).items).Perm
      ([podAlpha, podBeta, podGamma].filter
        (podcastClaimPred (some "alpha") none none none)) :=
  ⟨by decide, by decide,
    c5_podcast_filter_semantics isoNone ⟨[], [podAlpha, podBeta, podGamma], [], [], [], []⟩
      (some "alpha") none none none (by decide) (by decide) (by decide) (by decide)⟩

theorem descLe_total (k : Doc → Nat) (a b : Doc) :
    decide (k b ≤ k a) = true ∨ decide (k a ≤ k b) = true := by
  rcases Nat.le_total (k b) (k a) with h | h
  · exact Or.inl (decide_eq_true h)
  · exact Or.inr (decide_eq_true h)

theorem descLe_trans (k : Doc → Nat) (a b c : Doc)
    (h1 : decide (k b ≤ k a) = true) (h2 : decide (k c ≤ k b) = true) :
    decide (k c ≤ k a) = true :=
  decide_eq_true (Nat.le_trans (of_decide_eq_true h2) (of_decide_eq_true h1))

theorem sortDesc_pairwise (k : Doc → Nat) (l : List Doc) :
    (stableSort (fun a b => decide (k b ≤ k a)) l).Pairwise
      (fun x y => k y ≤ k x) := by
  have := stableSort_pairwise (fun a b => decide (k b ≤ k a))
    (fun a b => descLe_total k a b)
    (fun a b c => descLe_trans k a b c) l
  exact this.imp fun h => of_decide_eq_true h

/-- C6 (amended): the items of `GET /podcasts` are sorted by the coerced
`published_at` key descending, where a missing, non-native and
unparsable value coerces to the earliest possible timestamp; hence an
episode whose key is the earliest timestamp never precedes one with a
strictly later key — but an episode with no `published_at` can tie with,
and then stay ahead of, an episode whose `published_at` is present yet
coerces to the earliest timestamp. -/
theorem c6_podcasts_sorted_desc (iso : String → Option Nat) (db : Option DB)
    (q g p t : Option String) :
    ((list_podcasts iso db q g p t).items).Pairwise
      (fun x y => podKey iso y ≤ podKey iso x) ∧
    ((list_podcasts iso db q g p t).items).Pairwise
      (fun x y => 0 < podKey iso y → 0 < podKey iso x) := by
  have hs : ((list_podcasts iso db q g p t).items).Pairwise
      (fun x y => podKey iso y ≤ podKey iso x) := by
    simp only [list_podcasts]
    exact sortDesc_pairwise (podKey iso) _
  exact ⟨hs, hs.imp fun h hy => Nat.lt_of_lt_of_le hy h⟩

/-- Counterexample for C6 as stated: a store holding an episode without
`published_at` ahead of one whose `published_at` is an unparsable string
returns the no-date episode *before* an episode that has a
`published_at`, because both coerce to the earliest timestamp and the
stable sort keeps their store order. -/
theorem c6_counterexample :
    (list_podcasts isoNone (some ⟨[], [pcNoDate, pcBadDate], [], [], [], []⟩)
      none none none none).items = [pcNoDate, pcBadDate] ∧
    dGet pcNoDate "published_at" = none ∧
    ¬(dGet pcBadDate "published_at" = none) := by decide

theorem get_documents_empty (l : List Doc) : get_documents l emptyQuery = l :=
  filter_matchQuery_empty l

theorem eventPred_eq (iso : String → Option Nat) (now : Nat) (b : Bool)
    (hiso : iso "" = none) (e : Doc) (hwf : dateWellFormed iso e = true) :
    (truthyField e "date" &&
      (if b then decide (now ≤ evKey iso e) else decide (evKey iso e < now))) =
      eventClaimPred iso now b e := by
  cases hd : dGet e "date" with
  | none => simp [truthyField, eventClaimPred, hd]
  | some v =>
    cases v with
    | vDt t =>
      simp [truthyField, truthy, eventClaimPred, dateParses, evKey, pyDt, hd]
    | vStr s =>
      simp only [dateWellFormed, hd] at hwf
      by_cases hs : s = ""
      · subst hs
        simp [truthyField, truthy, eventClaimPred, dateParses, hd, hiso]
      · have hsome : (iso s).isSome = true := by
          rcases (Bool.or_eq_true _ _).mp hwf with h | h
          · exact absurd (by simpa using h) hs
          · exact h
        obtain ⟨t, ht⟩ := Option.isSome_iff_exists.mp hsome
        simp [truthyField, truthy, eventClaimPred, dateParses, evKey, pyDt, hd, ht, hs]
    | vBool bb => simp [dateWellFormed, hd] at hwf
    | vList xs => simp [dateWellFormed, hd] at hwf
    | vNone => simp [dateWellFormed, hd] at hwf

/-- C7 (amended): `GET /events` sorts all events by coerced date
descending (missing or unparsable dates as the earliest timestamp) and
reports `total` as the post-filter item count; when `upcoming` is
supplied and every stored date is well formed (absent, empty, native,
or ISO-parsable) the result is exactly the events whose date is present
and parses to a time `≥ now` (`upcoming=true`) or `< now`
(`upcoming=false`), events with no date excluded from both branches.
Without well-formedness the code places present-but-unparsable dates in
the past branch. -/
theorem c7_events_partition (iso : String → Option Nat) (now : Nat) (d : DB)
    (hiso : iso "" = none)
    (hwf : ∀ e ∈ d.event, dateWellFormed iso e = true) (upcoming : Option Bool) :
    (list_events iso now (some d) upcoming).total =
      (list_events iso now (some d) upcoming).items.length ∧
    ((list_events iso now (some d) upcoming).items).Pairwise
      (fun x y => evKey iso y ≤ evKey iso x) ∧
    (match upcoming with
     | none => ((list_events iso now (some d) upcoming).items).Perm d.event
     | some b => ((list_events iso now (some d) upcoming).items).Perm
         (d.event.filter (eventClaimPred iso now b))) := by
  cases upcoming with
  | none =>
    have hitems : (list_events iso now (some d) none).items
        = stableSort (fun a b => decide (evKey iso b ≤ evKey iso a)) d.event := by
      simp only [list_events, get_documents_empty]
    refine ⟨rfl, ?_, ?_⟩
    · rw [hitems]
      exact sortDesc_pairwise (evKey iso) d.event
    · rw [hitems]
      exact stableSort_perm _ _
  | some b =>
    have hitems : (list_events iso now (some d) (some b)).items
        = (stableSort (fun a b => decide (evKey iso b ≤ evKey iso a)) d.event).filter
            (fun e => truthyField e "date" &&
              (if b then decide (now ≤ evKey iso e) else decide (evKey iso e < now))) := by
      cases b <;> simp only [list_events, get_documents_empty] <;> rfl
    refine ⟨rfl, ?_, ?_⟩
    · rw [hitems]
      exact (sortDesc_pairwise (evKey iso) d.event).sublist (List.filter_sublist _)
    · rw [hitems]
      rw [List.filter_congr fun x hx => eventPred_eq iso now b hiso x
        (hwf x ((stableSort_perm _ d.event).subset hx))]
      exact (stableSort_perm _ d.event).filter _

/-- Witness for C7: on a store with a past event, a future event and an
undated event at instant 5, `upcoming=true` returns exactly the future
event. -/
theorem c7_events_partition_witness :
    isoNone "" = none ∧
    (∀ e ∈ [evPast, evFuture, evNoDate], dateWellFormed isoNone e = true) ∧
    [evPast, evFuture, evNoDate].filter (eventClaimPred isoNone 5 true) = [evFuture] ∧
    ((list_events isoNone 5 (some ⟨[], [], [], [], [], [evPast, evFuture, evNoDate]⟩)
        (some true)).items).Perm
      ([evPast, evFuture, evNoDate].filter (eventClaimPred isoNone 5 true)) :=
  ⟨rfl, by decide, by decide,
    (c7_events_partition isoNone 5 ⟨[], [], [], [], [], [evPast, evFuture, evNoDate]⟩
      rfl (by decide) (some true)).2.2⟩

/-- Counterexample for C7 as stated: an event whose `date` is a present
but unparsable string is returned by the `upcoming=false` branch, while
the claim's parse-based partition excludes it from both branches. -/
theorem c7_counterexample :
    (list_events isoNone 5 (some ⟨[], [], [], [], [], [evBadDate]⟩)
      (some false)).items = [evBadDate] ∧
    [evBadDate].filter (eventClaimPred isoNone 5 false) = [] := by decide

theorem dGet_setField (d : Doc) (f g : String) (v : Value) :
    dGet (setField d f v) g = if f = g then some v else dGet d g := by
  induction d with
  | nil =>
    simp [setField, dGet]
  | cons kv rest ih =>
    obtain ⟨k, w⟩ := kv
    by_cases hk : k = f
    · subst hk
      simp only [setField, if_pos rfl, dGet]
      by_cases hg : k = g
      · subst hg
        simp
      · simp [hg, dGet]
    · simp only [setField, if_neg hk, dGet]
      by_cases hg : k = g
      · subst hg
        have : ¬(f = k) := fun h => hk h.symm
        simp [this]
      · simp [hg, ih]

theorem matchQuery_single_cond (f : String) (c : QCond) (x : Doc) :
    matchQuery ⟨[(f, c)], []⟩ x = matchCond x f c := by
  simp [matchQuery]

/-- C8 (amended): when an import entry's slug matches an existing
episode, the update writes the normalized fields in place and always
refreshes `updated_at` to the current time, but never sets `created_at`
(the set-on-insert clause is inert in an update that cannot insert), so
an existing `created_at` is preserved exactly as stored and a missing
one stays missing; records created by the import path carry
`external_url` and `source`, but neither `created_at` nor `updated_at`. -/
theorem c8_upsert_field_behavior (now : Nat) (e : Entry) (d0 : Doc) :
    dGet (mongoUpdateExisting (payloadOf now e) now d0) "updated_at"
      = some (.vDt now) ∧
    dGet (mongoUpdateExisting (payloadOf now e) now d0) "created_at"
      = dGet d0 "created_at" ∧
    dGet (mongoUpdateExisting (payloadOf now e) now d0) "title"
      = some (.vStr (entryTitle e)) ∧
    dGet (mongoUpdateExisting (payloadOf now e) now d0) "slug"
      = some (.vStr (importSlug e)) ∧
    dGet (mongoUpdateExisting (payloadOf now e) now d0) "summary"
      = some (.vStr (entrySummary e)) ∧
    dGet (mongoUpdateExisting (payloadOf now e) now d0) "source"
      = some (.vStr "transistor") ∧
    dGet (payloadOf now e) "external_url" = some (optStrVal e.link) ∧
    dGet (payloadOf now e) "source" = some (.vStr "transistor") ∧
    dGet (payloadOf now e) "created_at" = none ∧
    dGet (payloadOf now e) "updated_at" = none := by
  refine ⟨?_, ?_, ?_, ?_, ?_, ?_, rfl, rfl, rfl, rfl⟩ <;>
    simp [mongoUpdateExisting, setFields, payloadOf, dGet_setField]

/-- Counterexample for C8 as stated: updating an existing episode that
has no `created_at` leaves `created_at` unset (the claim says it would
be set), and a record created by the import carries neither `created_at`
nor `updated_at`. -/
theorem c8_counterexample :
    dGet ((importEntries 7 [mkIdEntry "s"] [slugDocS]).1.headD []) "created_at"
      = none ∧
    (importEntries 7 [mkIdEntry "s"] [slugDocS]).2.2 = 1 ∧
    dGet ((importEntries 7 [mkIdEntry "x"] []).1.headD []) "created_at" = none ∧
    dGet ((importEntries 7 [mkIdEntry "x"] []).1.headD []) "updated_at" = none ∧
    (importEntries 7 [mkIdEntry "x"] []).2.1 = 1 := by decide

theorem payload_dGet_slug (now : Nat) (e : Entry) :
    dGet (payloadOf now e) "slug" = some (.vStr (importSlug e)) := rfl

theorem dGet_mongoUpdate_slug (now : Nat) (e : Entry) (d0 : Doc) :
    dGet (mongoUpdateExisting (payloadOf now e) now d0) "slug"
      = some (.vStr (importSlug e)) := by
  simp [mongoUpdateExisting, setFields, payloadOf, dGet_setField]

theorem matchQuery_slug_doc (s t : String) (b : Doc)
    (hb : dGet b "slug" = some (.vStr t)) :
    matchQuery (slugQuery s) b = decide (t = s) := by
  rw [show slugQuery s = ⟨[("slug", .eqv (.vStr s))], []⟩ from rfl,
    matchQuery_single_cond]
  simp [matchCond, hb]

theorem updateFirstMatching_append_none (P : Doc → Bool) (f : Doc → Doc)
    (A l : List Doc) (hA : ∀ a ∈ A, P a = false) :
    updateFirstMatching P f (A ++ l) = A ++ updateFirstMatching P f l := by
  induction A with
  | nil => rfl
  | cons a A ih =>
    have ha := hA a (List.mem_cons_self a A)
    simp only [List.cons_append, updateFirstMatching, ha, Bool.false_eq_true,
      if_false]
    exact congrArg (a :: ·) (ih fun x hx => hA x (List.mem_cons_of_mem a hx))

theorem updateFirstMatching_cons_true (P : Doc → Bool) (f : Doc → Doc)
    (b : Doc) (bs : List Doc) (hb : P b = true) :
    updateFirstMatching P f (b :: bs) = f b :: bs := by
  simp [updateFirstMatching, hb]

theorem importEntries_fresh (now : Nat) :
    ∀ (entries : List Entry) (coll : List Doc),
    List.Pairwise (fun e1 e2 => ¬(importSlug e1 = importSlug e2)) entries →
    (∀ e ∈ entries, coll.filter (matchQuery (slugQuery (importSlug e))) = []) →
    (importEntries now entries coll =
      (coll ++ entries.map (payloadOf now), entries.length, 0)) := by
  intro entries
  induction entries with
  | nil =>
    intro coll _ _
    simp [importEntries]
  | cons e rest ih =>
    intro coll hdisj hfresh
    rw [List.pairwise_cons] at hdisj
    obtain ⟨hde, hdisj'⟩ := hdisj
    have hcoll_e := hfresh e (List.mem_cons_self e rest)
    have hstep : importOne now coll e = (coll ++ [payloadOf now e], true) := by
      simp [importOne, hcoll_e, create_document]
    have hfresh' : ∀ e' ∈ rest,
        (coll ++ [payloadOf now e]).filter
          (matchQuery (slugQuery (importSlug e'))) = [] := by
      intro e' he'
      rw [List.filter_append, hfresh e' (List.mem_cons_of_mem e he')]
      have hm : matchQuery (slugQuery (importSlug e')) (payloadOf now e)
          = decide (importSlug e = importSlug e') :=
        matchQuery_slug_doc _ _ _ (payload_dGet_slug now e)
      simp [List.filter_cons, hm, hde e' he']
    have hrest := ih (coll ++ [payloadOf now e]) hdisj' hfresh'
    simp only [importEntries, hstep, hrest]
    simp [List.append_assoc, Nat.add_comm]

theorem importEntries_update (now : Nat) :
    ∀ (entries : List Entry) (A B : List Doc),
    List.Forall₂ (fun e b => dGet b "slug" = some (.vStr (importSlug e))) entries B →
    List.Pairwise (fun e1 e2 => ¬(importSlug e1 = importSlug e2)) entries →
    (∀ e ∈ entries, A.filter (matchQuery (slugQuery (importSlug e))) = []) →
    ∃ B', importEntries now entries (A ++ B) = (A ++ B', 0, entries.length) ∧
      B'.length = B.length := by
  intro entries
  induction entries with
  | nil =>
    intro A B hB _ _
    cases hB
    exact ⟨[], by simp [importEntries], rfl⟩
  | cons e rest ih =>
    intro A B hB hdisj hA
    cases hB with
    | cons hb hB' =>
      rename_i b bs
      rw [List.pairwise_cons] at hdisj
      obtain ⟨hde, hdisj'⟩ := hdisj
      have hAe : ∀ a ∈ A, matchQuery (slugQuery (importSlug e)) a = false := by
        intro a ha
        have := List.filter_eq_nil_iff.mp (hA e (List.mem_cons_self e rest)) a ha
        simpa using this
      have hPb : matchQuery (slugQuery (importSlug e)) b = true := by
        rw [matchQuery_slug_doc _ _ b hb]
        simp
      have hfilter : (A ++ b :: bs).filter (matchQuery (slugQuery (importSlug e))) =
          b :: bs.filter (matchQuery (slugQuery (importSlug e))) := by
        rw [List.filter_append, hA e (List.mem_cons_self e rest)]
        simp [List.filter_cons, hPb]
      have hupd : updateFirstMatching (matchQuery (slugQuery (importSlug e)))
          (mongoUpdateExisting (payloadOf now e) now) (A ++ b :: bs)
          = A ++ (mongoUpdateExisting (payloadOf now e) now b :: bs) := by
        rw [updateFirstMatching_append_none _ _ A _ hAe,
          updateFirstMatching_cons_true _ _ _ _ hPb]
      have hstep : importOne now (A ++ b :: bs) e =
          (A ++ (mongoUpdateExisting (payloadOf now e) now b :: bs), false) := by
        simp only [importOne, hfilter, hupd]
      have hA' : ∀ e' ∈ rest,
          (A ++ [mongoUpdateExisting (payloadOf now e) now b]).filter
            (matchQuery (slugQuery (importSlug e'))) = [] := by
        intro e' he'
        rw [List.filter_append, hA e' (List.mem_cons_of_mem e he')]
        have hm : matchQuery (slugQuery (importSlug e'))
            (mongoUpdateExisting (payloadOf now e) now b)
            = decide (importSlug e = importSlug e') :=
          matchQuery_slug_doc _ _ _ (dGet_mongoUpdate_slug now e b)
        simp [List.filter_cons, hm, hde e' he']
      obtain ⟨B'', hrun, hlen⟩ :=
        ih (A ++ [mongoUpdateExisting (payloadOf now e) now b]) bs hB' hdisj' hA'
      refine ⟨mongoUpdateExisting (payloadOf now e) now b :: B'', ?_, by simp [hlen]⟩
      have hassoc : A ++ (mongoUpdateExisting (payloadOf now e) now b :: bs)
          = (A ++ [mongoUpdateExisting (payloadOf now e) now b]) ++ bs := by
        simp
      simp only [importEntries, hstep, hassoc, hrun]
      simp [Nat.add_comm]

theorem forall2_slugs (now1 : Nat) :
    ∀ (l1 l2 : List Entry), l1.map importSlug = l2.map importSlug →
    List.Forall₂ (fun e b => dGet b "slug" = some (.vStr (importSlug e)))
      l2 (l1.map (payloadOf now1)) := by
  intro l1
  induction l1 with
  | nil =>
    intro l2 h
    cases l2 with
    | nil => exact List.Forall₂.nil
    | cons e2 t2 => exact absurd h (by simp)
  | cons e1 t1 ih =>
    intro l2 h
    cases l2 with
    | nil => exact absurd h (by simp)
    | cons e2 t2 =>
      simp only [List.map_cons, List.cons.injEq] at h
      obtain ⟨hslug, ht⟩ := h
      exact List.Forall₂.cons (by rw [payload_dGet_slug, hslug]) (ih t2 ht)

/-- C3 (amended): importing a feed twice, where the entries' identifiers
are unchanged between runs, the derived slugs are pairwise distinct, and
no stored episode already carries one of those slugs, reconciles each
entry by slug: the first call creates every entry (created = N,
updated = 0), the second call updates every entry in place (created = 0,
updated = N), and the reported total and the PodcastEpisode collection's
size are unchanged between the two calls. -/
theorem c3_import_twice (d : DB) (entries1 entries2 : List Entry) (now1 now2 : Nat)
    (hslugs : entries1.map importSlug = entries2.map importSlug)
    (hdisj : List.Pairwise (fun e1 e2 => ¬(importSlug e1 = importSlug e2)) entries1)
    (hfresh : ∀ e ∈ entries1,
      d.podcastepisode.filter (matchQuery (slugQuery (importSlug e))) = []) :
    ∃ r1 d1 r2 d2,
      (import_transistor (some d) true none none entries1 now1 = .ok (r1, d1)) ∧
      (import_transistor (some d1) true none none entries2 now2 = .ok (r2, d2)) ∧
      r1.created = entries1.length ∧ r1.updated = 0 ∧
      r2.created = 0 ∧ r2.updated = entries2.length ∧
      r1.total = r2.total ∧
      d1.podcastepisode.length = d2.podcastepisode.length := by
  have hrun1 := importEntries_fresh now1 entries1 d.podcastepisode hdisj hfresh
  have hdisj2 : List.Pairwise (fun e1 e2 => ¬(importSlug e1 = importSlug e2)) entries2 := by
    have h1 : (entries1.map importSlug).Pairwise (fun a b => ¬(a = b)) :=
      List.pairwise_map.mpr hdisj
    rw [hslugs] at h1
    exact List.pairwise_map.mp h1
  have hA2 : ∀ e ∈ entries2,
      d.podcastepisode.filter (matchQuery (slugQuery (importSlug e))) = [] := by
    intro e he
    have hmem : importSlug e ∈ entries1.map importSlug := by
      rw [hslugs]
      exact List.mem_map.mpr ⟨e, he, rfl⟩
    obtain ⟨e1, he1, heq⟩ := List.mem_map.mp hmem
    rw [← heq]
    exact hfresh e1 he1
  obtain ⟨B', hrun2, hlenB'⟩ := importEntries_update now2 entries2 d.podcastepisode
    (entries1.map (payloadOf now1)) (forall2_slugs now1 entries1 entries2 hslugs)
    hdisj2 hA2
  refine ⟨⟨"ok", entries1.length, 0,
      (d.podcastepisode ++ entries1.map (payloadOf now1)).length, resolveFeed none none⟩,
    { d with podcastepisode := d.podcastepisode ++ entries1.map (payloadOf now1) },
    ⟨"ok", 0, entries2.length, (d.podcastepisode ++ B').length, resolveFeed none none⟩,
    { d with podcastepisode := d.podcastepisode ++ B' },
    ?_, ?_, rfl, rfl, rfl, rfl, ?_, ?_⟩
  · simp [import_transistor, hrun1]
  · simp [import_transistor, hrun2]
  · simp [List.length_append, hlenB']
  · simp [List.length_append, hlenB']

/-- Witness for C3: one fresh entry imported twice into an empty store
reports created 1 then 0 and updated 0 then 1 with the total unchanged. -/
theorem c3_import_twice_witness :
    ([mkIdEntry "a"].map importSlug = [mkIdEntry "a"].map importSlug) ∧
    List.Pairwise (fun e1 e2 => ¬(importSlug e1 = importSlug e2)) [mkIdEntry "a"] ∧
    (∀ e ∈ [mkIdEntry "a"],
      (DB.podcastepisode ⟨[], [], [], [], [], []⟩).filter
        (matchQuery (slugQuery (importSlug e))) = []) ∧
    (∃ r1 d1 r2 d2,
      (import_transistor (some ⟨[], [], [], [], [], []⟩) true none none
        [mkIdEntry "a"] 3 = .ok (r1, d1)) ∧
      (import_transistor (some d1) true none none [mkIdEntry "a"] 4 = .ok (r2, d2)) ∧
      r1.created = [mkIdEntry "a"].length ∧ r1.updated = 0 ∧
      r2.created = 0 ∧ r2.updated = [mkIdEntry "a"].length ∧
      r1.total = r2.total ∧
      d1.podcastepisode.length = d2.podcastepisode.length) :=
  ⟨rfl, by decide, by decide,
    c3_import_twice ⟨[], [], [], [], [], []⟩ [mkIdEntry "a"] [mkIdEntry "a"] 3 4
      rfl (by decide) (by decide)⟩

/-- Counterexample for C3 as stated: when the store already holds an
episode with the entry's slug, the first call reports created 0 and
updated 1 (not created = N); and a feed with two entries sharing one
identifier reports created 1 and updated 1 on its first call into an
empty store. -/
theorem c3_counterexample :
    ((import_transistor (some ⟨[], [slugDocS], [], [], [], []⟩) true none none
        [mkIdEntry "s"] 7).toOption.map fun rd => (rd.1.created, rd.1.updated))
      = some (0, 1) ∧
    ((import_transistor (some ⟨[], [], [], [], [], []⟩) true none none
        [mkIdEntry "x", mkIdEntry "x"] 7).toOption.map fun rd =>
          (rd.1.created, rd.1.updated))
      = some (1, 1) := by decide
